import Mathlib

/-!
Shallow embedding of the sysinfo process/system-metrics collector
(src/src/linux/process.rs, src/src/freebsd/process.rs, src/src/freebsd/system.rs).

Modelling conventions:
  * Rust `u64` counters are modelled as `Nat`; unchecked `u64` subtraction
    (which wraps in release builds) is modelled as `wsub64`, i.e.
    subtraction modulo 2^64; `saturating_sub` is modelled as truncated
    `Nat` subtraction; unchecked `u64` addition as `wadd64`.
  * Rust `f32` arithmetic on CPU percentages is modelled over `ℚ`: every
    concrete sample used in the theorems below is exactly representable,
    and the claims under verification are about which formula is computed
    and which branch is taken, not about rounding.
  * pids (`i32` on both platforms) are modelled as `Int`.
  * Strings handled by the stat parser are modelled as `List Char`;
    Rust `str::split_whitespace` is modelled with `Char.isWhitespace`.
  * The identity fields of a process that are filled from one-shot external
    kernel queries (name, cmd, exe, cwd, root, environ) and the nested
    linux task table / cached stat file handle are external I/O and are
    omitted from the records; no claim below depends on them.
  * Rust slice indexing `parts[i]` panics when `i` is out of bounds.  Where
    a definition needs a field of the parsed record it uses `List.getD i []`
    and the theorems either carry a length hypothesis or (for the claim
    about panics on truncated records) exhibit the out-of-bounds index
    directly with `parts[i]? = none`.
-/

namespace Sysinfo

/-- Wrapping (unchecked) 64-bit subtraction: `a - b` on Rust `u64` in release
builds computes `(a + 2^64 - b) mod 2^64` when `a < b` (and panics in debug
builds). -/
def wsub64 (a b : Nat) : Nat := (2 ^ 64 + a - b) % 2 ^ 64

/-- Wrapping 64-bit addition. -/
def wadd64 (a b : Nat) : Nat := (a + b) % 2 ^ 64

/-- Shared enumeration of process states (`ProcessStatus` in the common crate
code; only the variants produced by the two backends shown). -/
inductive ProcessStatus
  | Idle
  | Run
  | Sleep
  | Stop
  | Zombie
  | Tracing
  | Dead
  | Wakekill
  | Waking
  | Parked
  | LockBlocked
  | Unknown (code : Int)
deriving DecidableEq, Repr

/-- Result of `ProcessExt::disk_usage` (`DiskUsage` struct): per-refresh
deltas plus cumulative totals for read/written bytes. -/
structure DiskUsage where
  written_bytes : Nat
  total_written_bytes : Nat
  read_bytes : Nat
  total_read_bytes : Nat
deriving DecidableEq, Repr

/-- The `Signal` enumeration of the public API (all 32 variants of the
source's `Signal` enum; the source's `IO` variant is spelled `Io` here). -/
inductive Signal
  | Hangup
  | Interrupt
  | Quit
  | Illegal
  | Trap
  | Abort
  | IOT
  | Bus
  | FloatingPointException
  | Kill
  | User1
  | Segv
  | User2
  | Pipe
  | Alarm
  | Term
  | Child
  | Continue
  | Stop
  | TSTP
  | TTIN
  | TTOU
  | Urgent
  | XCPU
  | XFSZ
  | VirtualAlarm
  | Profiling
  | Winch
  | Io
  | Poll
  | Power
  | Sys
deriving DecidableEq, Repr

namespace Linux

/-- The numeric / delta-tracking state of `linux::Process`
(src/src/linux/process.rs, struct `Process`).  The one-shot identity fields,
the nested `tasks` map and the cached `stat_file` handle are external I/O
state and are omitted (see the file header). -/
structure Process where
  pid : Int
  parent : Option Int
  memory : Nat
  virtual_memory : Nat
  utime : Nat
  stime : Nat
  old_utime : Nat
  old_stime : Nat
  start_time : Nat
  updated : Bool
  cpu_usage : ℚ
  uid : Nat
  gid : Nat
  status : ProcessStatus
  old_read_bytes : Nat
  old_written_bytes : Nat
  read_bytes : Nat
  written_bytes : Nat
deriving DecidableEq, Repr

/-- `linux Process::new` (src/src/linux/process.rs lines 103-136): all
counters zero, `updated` initialised to `true`, `cpu_usage` 0. -/
def Process.new (pid : Int) (parent : Option Int) (start_time : Nat) : Process :=
  { pid := pid
    parent := parent
    memory := 0
    virtual_memory := 0
    cpu_usage := 0
    utime := 0
    stime := 0
    old_utime := 0
    old_stime := 0
    updated := true
    start_time := start_time
    uid := 0
    gid := 0
    status := ProcessStatus.Unknown 0
    old_read_bytes := 0
    old_written_bytes := 0
    read_bytes := 0
    written_bytes := 0 }

/-- `linux Process::disk_usage` (src/src/linux/process.rs lines 228-235).
The deltas use plain `u64` subtraction `self.written_bytes -
self.old_written_bytes`, i.e. wrapping subtraction in release builds
(a panic in debug builds); there is no clamping in this backend. -/
def Process.disk_usage (p : Process) : DiskUsage :=
  { written_bytes := wsub64 p.written_bytes p.old_written_bytes
    total_written_bytes := p.written_bytes
    read_bytes := wsub64 p.read_bytes p.old_read_bytes
    total_read_bytes := p.read_bytes }

/-- `compute_cpu_usage` (src/src/linux/process.rs lines 248-262): early
return leaving the process unchanged when there is no previous CPU-time
sample (`old_utime == 0 && old_stime == 0`); otherwise the usage is
`(Δutime + Δstime) / total_time * 100` (with `saturating_sub` deltas)
capped by `.min(max_value)`, and `updated` is reset to `false`. -/
def compute_cpu_usage (p : Process) (total_time max_value : ℚ) : Process :=
  if p.old_utime = 0 ∧ p.old_stime = 0 then p
  else
    { p with
      cpu_usage := min ((((p.utime - p.old_utime) + (p.stime - p.old_stime) : Nat) : ℚ)
        / total_time * 100) max_value
      updated := false }

/-- `set_time` (src/src/linux/process.rs lines 264-270): rotates the
current CPU-time sample into the previous-sample slots, stores the new
sample, and marks the process as seen. -/
def set_time (p : Process) (utime stime : Nat) : Process :=
  { p with
    old_utime := p.utime
    old_stime := p.stime
    utime := utime
    stime := stime
    updated := true }

/-- `has_been_updated` (src/src/linux/process.rs lines 272-274). -/
def has_been_updated (p : Process) : Bool := p.updated

/-- Splits a character list at the first occurrence of `c` (both halves
exclusive of `c`); `none` when `c` does not occur.  This models the failing
path of Rust `splitn(2, c)`: the second `.next()` is `None` exactly when the
separator is absent. -/
def splitFirst (c : Char) : List Char → Option (List Char × List Char)
  | [] => none
  | x :: xs =>
    if x = c then some ([], xs)
    else
      match splitFirst c xs with
      | some (a, b) => some (x :: a, b)
      | none => none

/-- Splits a character list at the last occurrence of `c`; `none` when `c`
does not occur.  Models Rust `rsplitn(2, c)`: the first `.next()` yields the
suffix after the last separator and the second yields the prefix, which is
`None` exactly when the separator is absent. -/
def splitLast (c : Char) (s : List Char) : Option (List Char × List Char) :=
  match splitFirst c s.reverse with
  | some (a, b) => some (b.reverse, a.reverse)
  | none => none

/-- Accumulator-based tokenizer behind `splitWhitespace`. -/
def splitWhitespaceAux : List Char → List Char → List (List Char)
  | acc, [] => if acc.isEmpty then [] else [acc.reverse]
  | acc, x :: xs =>
    if x.isWhitespace then
      if acc.isEmpty then splitWhitespaceAux [] xs
      else acc.reverse :: splitWhitespaceAux [] xs
    else splitWhitespaceAux (x :: acc) xs

/-- Rust `str::split_whitespace`: splits on whitespace, dropping empty
tokens. -/
def splitWhitespace (s : List Char) : List (List Char) := splitWhitespaceAux [] s

/-- Models `parts[1].strip_prefix('(')` followed by the reassignment: drops
one leading opening parenthesis when present. -/
def stripLParen : List Char → List Char
  | '(' :: rest => rest
  | s => s

/-- `parse_stat_file` (src/src/linux/process.rs lines 655-677): the first
field is delimited by the first whitespace; the second (command-name) field
is everything up to the last closing parenthesis of the remainder, with one
leading opening parenthesis stripped; every later field is
whitespace-delimited.  Returns `none` (the source's `Err(())`) when the
first space or the closing parenthesis is absent. -/
def parse_stat_file (data : List Char) : Option (List (List Char)) :=
  match splitFirst ' ' data with
  | none => none
  | some (field0, rest) =>
    match splitLast ')' rest with
    | none => none
    | some (beforeParen, afterParen) =>
      some (field0 :: stripLParen beforeParen :: splitWhitespace afterParen)

/-- Rust `u64::from_str`: an optional leading plus sign followed by at least
one decimal digit, value below 2^64. -/
def parseU64 (s : List Char) : Option Nat :=
  let digits := match s with
    | '+' :: rest => rest
    | _ => s
  if digits.isEmpty then none
  else if digits.all Char.isDigit then
    let val := digits.foldl (fun acc c => acc * 10 + (c.toNat - 48)) 0
    if val < 2 ^ 64 then some val else none
  else none

/-- A `u64::from_str(...).unwrap_or(0)` parse as used throughout
`update_time_and_memory` and `_get_process_data`. -/
def parseU64D (s : List Char) : Nat := (parseU64 s).getD 0

/-- `update_time_and_memory` (src/src/linux/process.rs lines 463-492), the
field-update part: rss (`parts[23] * page_size_kb`) and vsz (`parts[22]`)
are read, and the owning process's own reading is subtracted from the
task-row's reading only when the row's reading is at least as large
(`if entry.memory >= parent_memory {{ entry.memory -= parent_memory; }}`);
then `set_time` stores the new samples from `parts[13]`/`parts[14]`.  The
trailing `refresh_procs(entry, path.join("task"), ...)` call re-enumerates
the task directory on disk and is external I/O, modelled separately by the
refresh-pass model.  Field access `parts[i]` is modelled with `getD i []`
(the source indexing panics when the record is shorter; see the truncated
record theorems). -/
def update_time_and_memory (entry : Process) (parts : List (List Char))
    (page_size_kb parent_memory parent_virtual_memory : Nat) : Process :=
  let entry := { entry with memory := parseU64D (parts.getD 23 []) * page_size_kb }
  let entry :=
    if parent_memory ≤ entry.memory then { entry with memory := entry.memory - parent_memory }
    else entry
  let entry := { entry with virtual_memory := parseU64D (parts.getD 22 []) }
  let entry :=
    if parent_virtual_memory ≤ entry.virtual_memory then
      { entry with virtual_memory := entry.virtual_memory - parent_virtual_memory }
    else entry
  set_time entry (parseU64D (parts.getD 13 [])) (parseU64D (parts.getD 14 []))

end Linux

namespace Freebsd

/-- `From<libc::c_char> for ProcessStatus` (src/src/freebsd/process.rs lines
11-24); the FreeBSD state codes are SIDL=1, SRUN=2, SSLEEP=3, SSTOP=4,
SZOMB=5, SWAIT=6, SLOCK=7. -/
def status_from_code (status : Int) : ProcessStatus :=
  if status = 1 then ProcessStatus.Idle
  else if status = 2 then ProcessStatus.Run
  else if status = 3 then ProcessStatus.Sleep
  else if status = 4 then ProcessStatus.Stop
  else if status = 5 then ProcessStatus.Zombie
  else if status = 6 then ProcessStatus.Dead
  else if status = 7 then ProcessStatus.LockBlocked
  else ProcessStatus.Unknown status

/-- The numeric / delta-tracking state of `freebsd::Process`
(src/src/freebsd/process.rs, struct `Process`).  The identity-string fields
(name, cmd, exe, cwd, root, environ) are filled from external kernel queries
(`sysctl`, `kvm_getargv`, `kvm_getenvv`) and are omitted (see the file
header); no claim below depends on them. -/
structure Process where
  pid : Int
  parent : Option Int
  memory : Nat
  virtual_memory : Nat
  updated : Bool
  cpu_usage : ℚ
  start_time : Int
  run_time : Nat
  status : ProcessStatus
  uid : Nat
  gid : Nat
  read_bytes : Nat
  old_read_bytes : Nat
  written_bytes : Nat
  old_written_bytes : Nat
deriving DecidableEq, Repr

/-- `freebsd Process::new` (src/src/freebsd/process.rs lines 69-93):
everything zeroed, `updated` initialised to `false`. -/
def Process.new (pid : Int) (parent : Option Int) (start_time : Int) : Process :=
  { pid := pid
    parent := parent
    memory := 0
    virtual_memory := 0
    updated := false
    cpu_usage := 0
    start_time := start_time
    run_time := 0
    status := ProcessStatus.Unknown 0
    uid := 0
    gid := 0
    read_bytes := 0
    old_read_bytes := 0
    written_bytes := 0
    old_written_bytes := 0 }

/-- `freebsd Process::disk_usage` (src/src/freebsd/process.rs lines
184-191): the deltas use `saturating_sub`, i.e. truncated subtraction
clamped to zero on underflow. -/
def Process.disk_usage (p : Process) : DiskUsage :=
  { written_bytes := p.written_bytes - p.old_written_bytes
    total_written_bytes := p.written_bytes
    read_bytes := p.read_bytes - p.old_read_bytes
    total_read_bytes := p.read_bytes }

/-- `freebsd Process::kill` signal mapping (src/src/freebsd/process.rs lines
95-130): `Signal::Poll | Signal::Power => return false` before any syscall;
every other variant maps to its FreeBSD libc signal number. -/
def signal_to_c (signal : Signal) : Option Int :=
  match signal with
  | Signal.Hangup => some 1
  | Signal.Interrupt => some 2
  | Signal.Quit => some 3
  | Signal.Illegal => some 4
  | Signal.Trap => some 5
  | Signal.Abort => some 6
  | Signal.IOT => some 6
  | Signal.Bus => some 10
  | Signal.FloatingPointException => some 8
  | Signal.Kill => some 9
  | Signal.User1 => some 30
  | Signal.Segv => some 11
  | Signal.User2 => some 31
  | Signal.Pipe => some 13
  | Signal.Alarm => some 14
  | Signal.Term => some 15
  | Signal.Child => some 20
  | Signal.Continue => some 19
  | Signal.Stop => some 17
  | Signal.TSTP => some 18
  | Signal.TTIN => some 21
  | Signal.TTOU => some 22
  | Signal.Urgent => some 16
  | Signal.XCPU => some 24
  | Signal.XFSZ => some 25
  | Signal.VirtualAlarm => some 26
  | Signal.Profiling => some 27
  | Signal.Winch => some 28
  | Signal.Io => some 23
  | Signal.Sys => some 12
  | Signal.Poll => none
  | Signal.Power => none

/-- `freebsd Process::kill` (src/src/freebsd/process.rs lines 95-130),
with the `libc::kill(self.pid, c_signal) == 0` syscall abstracted as the
`deliver` oracle.  The second component records which libc signal (if any)
was handed to `kill(2)`: `none` means the function returned `false` without
attempting delivery. -/
def Process.kill (deliver : Int → Bool) (signal : Signal) : Bool × Option Int :=
  match signal_to_c signal with
  | none => (false, none)
  | some c => (deliver c, some c)

/-- The fields of `libc::kinfo_proc` read by `get_process_data`
(src/src/freebsd/process.rs lines 202-297).  `ki_system` stands for
`(ki_flag & libc::P_SYSTEM) != 0`. -/
structure Kinfo where
  ki_pid : Int
  ki_ppid : Int
  ki_system : Bool
  ki_stat : Int
  ki_size : Nat
  ki_rssize : Nat
  ki_runtime : Nat
  ki_pctcpu : Nat
  ki_ruid : Nat
  ki_rgid : Nat
  ki_start_sec : Int
  ru_inblock : Nat
  ru_oublock : Nat
deriving DecidableEq, Repr

/-- The process table (`HashMap<Pid, Process>`), modelled as an association
list with no duplicate keys created by the operations below. -/
abbrev PTable := List (Int × Process)

/-- `HashMap::get` on the process table: the value at the first matching
key. -/
def lookupTable (table : PTable) (pid : Int) : Option Process :=
  match table.find? (fun pr => pr.1 == pid) with
  | some pr => some pr.2
  | none => none

/-- In-place mutation of the entry at `pid` (the `get_mut` branch of
`get_process_data`). -/
def updateTable (table : PTable) (pid : Int) (p : Process) : PTable :=
  table.map (fun pr => if pr.1 == pid then (pr.1, p) else pr)

/-- `HashMap::contains_key`. -/
def containsTable (table : PTable) (pid : Int) : Bool :=
  table.any (fun pr => pr.1 == pid)

/-- `HashMap::insert`: replaces the value when the key is present, appends
otherwise. -/
def insertTable (table : PTable) (pid : Int) (p : Process) : PTable :=
  if containsTable table pid then updateTable table pid p else table ++ [(pid, p)]

/-- `get_process_data` (src/src/freebsd/process.rs lines 202-297).  Kernel
threads (`P_SYSTEM` set and pid ≠ 1) are filtered out.  The per-process CPU
usage `(100 * ki_pctcpu) / fscale`, parent, status, memory, virtual memory
and run time are computed for new and existing processes alike.  An existing
table entry is updated in place (rotating the disk-I/O counters into the
previous-sample slots) and `none` is returned; otherwise a brand-new
`Process` is returned with `updated := true` and zeroed previous-sample
disk counters, leaving the table untouched.  The external `sysctl` exe/cwd
lookups populate omitted identity fields. -/
def get_process_data (kproc : Kinfo) (table : PTable) (page_size : Nat) (fscale : ℚ) :
    PTable × Option Process :=
  if kproc.ki_pid ≠ 1 ∧ kproc.ki_system then (table, none)
  else
    let cpu_usage : ℚ := 100 * (kproc.ki_pctcpu : ℚ) / fscale
    let parent := if kproc.ki_ppid ≠ 0 then some kproc.ki_ppid else none
    let status := status_from_code kproc.ki_stat
    let virtual_memory := kproc.ki_size / 1000
    let memory := kproc.ki_rssize * page_size
    let run_time := (kproc.ki_runtime + 5000) / 10000
    match lookupTable table kproc.ki_pid with
    | some proc_ =>
      (updateTable table kproc.ki_pid
        { proc_ with
          cpu_usage := cpu_usage
          parent := parent
          status := status
          virtual_memory := virtual_memory
          memory := memory
          run_time := run_time
          updated := true
          old_read_bytes := proc_.read_bytes
          read_bytes := kproc.ru_inblock
          old_written_bytes := proc_.written_bytes
          written_bytes := kproc.ru_oublock }, none)
    | none =>
      (table, some
        { pid := kproc.ki_pid
          parent := parent
          uid := kproc.ki_ruid
          gid := kproc.ki_rgid
          start_time := kproc.ki_start_sec
          run_time := run_time
          cpu_usage := cpu_usage
          virtual_memory := virtual_memory
          memory := memory
          status := status
          read_bytes := kproc.ru_inblock
          old_read_bytes := 0
          written_bytes := kproc.ru_oublock
          old_written_bytes := 0
          updated := true })

/-- Step (1) of the full-table pass: mark every held entity `updated =
false` (src/src/freebsd/system.rs lines 316-318). -/
def markNotUpdated (table : PTable) : PTable :=
  table.map (fun pr => (pr.1, { pr.2 with updated := false }))

/-- Steps (2)-(3) of the full-table pass: run `get_process_data` over the
kernel's listing, threading the (conceptually shared, disjointly written)
table through and collecting the staged new processes in order
(src/src/freebsd/system.rs lines 325-329, sequentialised). -/
def fetchAll (procs : List Kinfo) (table : PTable) (page_size : Nat) (fscale : ℚ) :
    PTable × List Process :=
  match procs with
  | [] => (table, [])
  | kproc :: rest =>
    match get_process_data kproc table page_size fscale with
    | (t, some p) =>
      let r := fetchAll rest t page_size fscale
      (r.1, p :: r.2)
    | (t, none) => fetchAll rest t page_size fscale

/-- `System::refresh_procs` (src/src/freebsd/system.rs lines 302-356): when
`kvm_getprocs` returns an empty listing the pass returns early leaving the
table untouched; otherwise every held entity is marked not-updated, the
listing is fetched (updating existing entries in place and staging new
ones), the entities still not updated are evicted
(`process_list.retain(|_, v| v.updated)`), and finally the staged new
processes (whose identity fields are filled from `kvm_getargv` /
`kvm_getenvv` in the sequential epilogue) are inserted. -/
def refresh_procs (table : PTable) (procs : List Kinfo) (page_size : Nat) (fscale : ℚ) :
    PTable :=
  if procs.isEmpty then table
  else
    let fetched := fetchAll procs (markNotUpdated table) page_size fscale
    let retained := fetched.1.filter (fun pr => pr.2.updated)
    fetched.2.foldl (fun t p => insertTable t p.pid p) retained

/-- The scalar inputs the memory refresh reads from the kernel through
`SystemInfo::get_total_memory`, `get_used_memory`, `get_free_memory` and
`get_swap_info` (all external sysctl/kvm queries). -/
structure MemInput where
  total_memory : Nat
  used_memory : Nat
  free_memory : Nat
  swap_used : Nat
  swap_total : Nat
deriving DecidableEq, Repr

/-- The memory/swap slice of `freebsd::System` (src/src/freebsd/system.rs,
struct `System`). -/
structure MemState where
  mem_total : Nat
  mem_free : Nat
  mem_used : Nat
  mem_available : Nat
  swap_total : Nat
  swap_used : Nat
deriving DecidableEq, Repr

/-- The memory/swap slice of the state built by `System::new_with_specifics`
(src/src/freebsd/system.rs lines 46-62): every field starts at zero. -/
def MemState.new : MemState :=
  { mem_total := 0
    mem_free := 0
    mem_used := 0
    mem_available := 0
    swap_total := 0
    swap_used := 0 }

/-- `System::refresh_memory` (src/src/freebsd/system.rs lines 67-76):
`mem_total` is assigned only while still zero; `mem_used`, `mem_free`,
`swap_total` and `swap_used` are overwritten; `mem_available` is never
assigned. -/
def refresh_memory (s : MemState) (i : MemInput) : MemState :=
  let s := if s.mem_total = 0 then { s with mem_total := i.total_memory } else s
  let s := { s with mem_used := i.used_memory }
  let s := { s with mem_free := i.free_memory }
  { s with swap_total := i.swap_total, swap_used := i.swap_used }

/-- `System::available_memory` (src/src/freebsd/system.rs lines 211-213). -/
def available_memory (s : MemState) : Nat := s.mem_available

/-- `CPUSTATES` (src/src/freebsd/system.rs line 360). -/
def CPUSTATES : Nat := 5

/-- `libc::CP_IDLE` on FreeBSD. -/
def CP_IDLE : Nat := 4

/-- The `total_new` / `total_old` accumulation of the `fill_processor` loop
(src/src/freebsd/system.rs lines 583-595): the sum of the five per-state
tick counters, with `u64` wrapping addition. -/
def sumTicks (cp_time : List Nat) : Nat :=
  (List.range CPUSTATES).foldl (fun acc i => wadd64 acc (cp_time.getD i 0)) 0

/-- The `cp_diff` accumulation of the `fill_processor` loop: the summed
per-state deltas over the non-idle states, each an unchecked `c_ulong`
subtraction. -/
def nonIdleDiff (new_cp_time old_cp_time : List Nat) : Nat :=
  (List.range CPUSTATES).foldl
    (fun acc i =>
      if i ≠ CP_IDLE then wadd64 acc (wsub64 (new_cp_time.getD i 0) (old_cp_time.getD i 0))
      else acc)
    0

/-- `fill_processor` (src/src/freebsd/system.rs lines 578-603): when
`total_diff < 1` the usage is set to 0 without dividing; otherwise it is
`cp_diff / total_diff * 100`.  The source accumulates `cp_diff`,
`total_new` and `total_old` in one loop over the five states; the three
accumulators are independent and are written here as `nonIdleDiff` and
`sumTicks`. -/
def fill_processor (new_cp_time old_cp_time : List Nat) : ℚ :=
  let total_diff := wsub64 (sumTicks new_cp_time) (sumTicks old_cp_time)
  if total_diff < 1 then 0
  else (nonIdleDiff new_cp_time old_cp_time : ℚ) / (total_diff : ℚ) * 100

end Freebsd

/-- A sample kernel listing entry (an ordinary running user process) used to
instantiate theorems at concrete inputs. -/
def sampleKinfo : Freebsd.Kinfo :=
  { ki_pid := 2
    ki_ppid := 1
    ki_system := false
    ki_stat := 2
    ki_size := 4000
    ki_rssize := 3
    ki_runtime := 20000
    ki_pctcpu := 2048
    ki_ruid := 0
    ki_rgid := 0
    ki_start_sec := 100
    ru_inblock := 7
    ru_oublock := 9 }

/-- A second sample kernel listing entry (a sleeping user process) used to
instantiate the refresh-pass theorems at concrete inputs. -/
def sampleK5 : Freebsd.Kinfo :=
  { ki_pid := 5
    ki_ppid := 1
    ki_system := false
    ki_stat := 3
    ki_size := 8000
    ki_rssize := 2
    ki_runtime := 60000
    ki_pctcpu := 0
    ki_ruid := 0
    ki_rgid := 0
    ki_start_sec := 10
    ru_inblock := 1
    ru_oublock := 1 }

/-! Theorems. -/

/-- C1: the claim says both backends clamp the per-refresh disk I/O delta to
zero on underflow.  The FreeBSD backend does (`saturating_sub`), but the
Linux `Process::disk_usage` uses unchecked `u64` subtraction: with a raw
counter that decreased from 10 to 5 between samples the Linux delta is the
wrapped value `2^64 - 5` (a panic in debug builds), not 0. -/
theorem c1_linux_disk_usage_underflow_not_clamped :
    (Linux.Process.disk_usage
        { Linux.Process.new 42 none 0 with read_bytes := 5, old_read_bytes := 10 }).read_bytes
      = 2 ^ 64 - 5
    ∧ (Linux.Process.disk_usage
        { Linux.Process.new 42 none 0 with read_bytes := 5, old_read_bytes := 10 }).read_bytes
      ≠ 0
    ∧ (Freebsd.Process.disk_usage
        { Freebsd.Process.new 42 none 0 with read_bytes := 5, old_read_bytes := 10 }).read_bytes
      = 0 := by
  refine ⟨?_, ?_, ?_⟩ <;> decide

/-- C4: on a truncated stat record that still contains the first space and a
closing parenthesis (here `"1 (a) R"`), `parse_stat_file` succeeds with only
3 fields, so the consumers' positional accesses `parts[21]` (in
`_get_process_data`) and `parts[13]` (in `update_time_and_memory`) are out
of bounds — a panic, not an error signal.  Only records missing the first
space or the closing parenthesis (e.g. `"1"`) yield the error return. -/
theorem c4_truncated_stat_record_panics :
    Linux.parse_stat_file ("1 (a) R".toList)
        = some ["1".toList, "a".toList, "R".toList]
    ∧ (Linux.parse_stat_file ("1 (a) R".toList)).bind (fun parts => parts[21]?) = none
    ∧ (Linux.parse_stat_file ("1 (a) R".toList)).bind (fun parts => parts[13]?) = none
    ∧ Linux.parse_stat_file ("1".toList) = none := by
  refine ⟨?_, ?_, ?_, ?_⟩ <;> decide

/-- C7: in `fill_processor`, when the total elapsed tick count between the
previous and current per-core samples is zero, the computed CPU usage is 0
and the division is never reached. -/
theorem c7_fill_processor_zero_elapsed (new_cp_time old_cp_time : List Nat)
    (h : Freebsd.sumTicks new_cp_time = Freebsd.sumTicks old_cp_time) :
    Freebsd.fill_processor new_cp_time old_cp_time = 0 := by
  unfold Freebsd.fill_processor
  rw [h]
  simp [wsub64]

/-- Witness for C7 at two concrete tick samples with equal totals. -/
theorem c7_fill_processor_zero_elapsed_witness :
    Freebsd.sumTicks [1, 2, 3, 4, 5] = Freebsd.sumTicks [2, 3, 1, 4, 5]
    ∧ Freebsd.fill_processor [1, 2, 3, 4, 5] [2, 3, 1, 4, 5] = 0 :=
  ⟨by decide, c7_fill_processor_zero_elapsed _ _ (by decide)⟩

/-- C8 counterexample: the claim says the owning process's memory reading
is subtracted from a thread row's reading with the result clamped to zero
on underflow.  With a thread-row rss of 5 pages (page size 1) and a parent
memory of 10, `update_time_and_memory` leaves the reading at the raw value
5, not the clamped 0. -/
theorem c8_thread_memory_underflow_cex :
    (Linux.update_time_and_memory (Linux.Process.new 2 none 0)
        (List.replicate 23 (['0']) ++ [['5']]) 1 10 0).memory = 5
    ∧ (Linux.update_time_and_memory (Linux.Process.new 2 none 0)
        (List.replicate 23 (['0']) ++ [['5']]) 1 10 0).memory ≠ 0 := by
  constructor <;> decide

/-- C8 (amended): `update_time_and_memory` subtracts the owning process's
memory / virtual-memory reading from the thread row's reading only when the
row's reading is at least as large; when the subtraction would underflow
the row's raw reading is kept unchanged (it is not clamped to zero). -/
theorem c8_update_time_and_memory_parent_subtraction (entry : Linux.Process)
    (parts : List (List Char)) (page_size_kb parent_memory parent_virtual_memory : Nat) :
    (Linux.update_time_and_memory entry parts page_size_kb parent_memory
        parent_virtual_memory).memory
      = (if parent_memory ≤ Linux.parseU64D (parts.getD 23 []) * page_size_kb
         then Linux.parseU64D (parts.getD 23 []) * page_size_kb - parent_memory
         else Linux.parseU64D (parts.getD 23 []) * page_size_kb)
    ∧ (Linux.update_time_and_memory entry parts page_size_kb parent_memory
        parent_virtual_memory).virtual_memory
      = (if parent_virtual_memory ≤ Linux.parseU64D (parts.getD 22 [])
         then Linux.parseU64D (parts.getD 22 []) - parent_virtual_memory
         else Linux.parseU64D (parts.getD 22 [])) := by
  simp only [Linux.update_time_and_memory, Linux.set_time]
  constructor <;> (split <;> split <;> rfl)

/-- Auxiliary: `refresh_memory` never writes `mem_available`. -/
theorem refresh_memory_preserves_available (s : Freebsd.MemState) (i : Freebsd.MemInput) :
    (Freebsd.refresh_memory s i).mem_available = s.mem_available := by
  unfold Freebsd.refresh_memory
  split <;> rfl

/-- Auxiliary: folding `refresh_memory` over any input sequence leaves
`available_memory` unchanged. -/
theorem foldl_refresh_memory_available (l : List Freebsd.MemInput) (s : Freebsd.MemState) :
    Freebsd.available_memory (l.foldl Freebsd.refresh_memory s) = Freebsd.available_memory s := by
  induction l generalizing s with
  | nil => rfl
  | cons i t ih =>
    rw [List.foldl_cons, ih]
    simp [Freebsd.available_memory, refresh_memory_preserves_available]

/-- C9: on the FreeBSD backend `refresh_memory` assigns `mem_total` only
while it is still zero, overwrites `mem_used`, `mem_free`, `swap_total` and
`swap_used`, and never assigns `mem_available`; consequently
`available_memory()` still returns the construction-time value 0 after any
sequence of memory refreshes. -/
theorem c9_refresh_memory_never_assigns_available :
    (∀ (s : Freebsd.MemState) (i : Freebsd.MemInput),
        (Freebsd.refresh_memory s i).mem_available = s.mem_available
        ∧ (Freebsd.refresh_memory s i).mem_total
            = (if s.mem_total = 0 then i.total_memory else s.mem_total)
        ∧ (Freebsd.refresh_memory s i).mem_used = i.used_memory
        ∧ (Freebsd.refresh_memory s i).mem_free = i.free_memory
        ∧ (Freebsd.refresh_memory s i).swap_total = i.swap_total
        ∧ (Freebsd.refresh_memory s i).swap_used = i.swap_used)
    ∧ ∀ l : List Freebsd.MemInput,
        Freebsd.available_memory (l.foldl Freebsd.refresh_memory Freebsd.MemState.new) = 0 := by
  constructor
  · intro s i
    unfold Freebsd.refresh_memory
    split <;> simp_all
  · intro l
    rw [foldl_refresh_memory_available]
    rfl

/-- C10: on the FreeBSD backend, `Process::kill` returns `false` for
`Signal::Poll` and `Signal::Power` without attempting any delivery (no libc
signal is produced), while every other variant is mapped to a libc signal
number and handed to `kill(2)`. -/
theorem c10_freebsd_kill_poll_power (deliver : Int → Bool) :
    Freebsd.Process.kill deliver Signal.Poll = (false, none)
    ∧ Freebsd.Process.kill deliver Signal.Power = (false, none)
    ∧ ∀ signal : Signal, signal ≠ Signal.Poll → signal ≠ Signal.Power →
        ∃ c : Int, Freebsd.signal_to_c signal = some c
          ∧ Freebsd.Process.kill deliver signal = (deliver c, some c) := by
  refine ⟨rfl, rfl, ?_⟩
  intro signal h1 h2
  cases signal <;>
    first
      | exact absurd rfl h1
      | exact absurd rfl h2
      | exact ⟨_, rfl, rfl⟩

/-- C2 counterexample: the claim says every process entity created by a
refresh pass reports CPU usage 0 on its first-ever observation.  On the
FreeBSD backend a brand-new entity (empty table, so this is its first
observation) is created by `get_process_data` with `cpu_usage = 100 *
ki_pctcpu / fscale`, here 100 ≠ 0. -/
theorem c2_freebsd_first_observation_nonzero_cex :
    Option.map Freebsd.Process.cpu_usage
        (Freebsd.get_process_data
          { ki_pid := 2, ki_ppid := 1, ki_system := false, ki_stat := 2, ki_size := 4000,
            ki_rssize := 3, ki_runtime := 20000, ki_pctcpu := 2048, ki_ruid := 0,
            ki_rgid := 0, ki_start_sec := 100, ru_inblock := 7, ru_oublock := 9 }
          [] 4 2048).2
      = some 100
    ∧ (100 : ℚ) ≠ 0 := by
  refine ⟨?_, by norm_num⟩
  simp [Freebsd.get_process_data, Freebsd.lookupTable]

/-- C2 (amended): on the Linux backend the reported CPU usage is 0 on an
entity's first-ever observation — `compute_cpu_usage` returns without
assigning while the previous-sample slots are still zero and a fresh entity
starts at 0, so a non-zero usage is only possible from the second
observation onward.  On the FreeBSD backend a brand-new (first-observed)
entity's usage is taken directly from the kernel's `ki_pctcpu / fscale`
sample and can already be non-zero. -/
theorem c2_first_observation_usage (pid : Int) (parent : Option Int) (start_time : Nat)
    (utime stime : Nat) (total_time max_value : ℚ)
    (kproc : Freebsd.Kinfo) (table : Freebsd.PTable) (page_size : Nat) (fscale : ℚ)
    (hnew : Freebsd.lookupTable table kproc.ki_pid = none) :
    (Linux.compute_cpu_usage
        (Linux.set_time (Linux.Process.new pid parent start_time) utime stime)
        total_time max_value).cpu_usage = 0
    ∧ Option.map Freebsd.Process.cpu_usage
        (Freebsd.get_process_data kproc table page_size fscale).2
      = (if kproc.ki_pid ≠ 1 ∧ kproc.ki_system then none
         else some (100 * (kproc.ki_pctcpu : ℚ) / fscale)) := by
  constructor
  · rfl
  · unfold Freebsd.get_process_data
    by_cases hf : kproc.ki_pid ≠ 1 ∧ kproc.ki_system
    · simp [hf]
    · simp [hf, hnew]

/-- Witness for C2's amended theorem at concrete inputs: the empty table as
first observation, a Linux entity observed once, a FreeBSD entity created
from `sampleKinfo`. -/
theorem c2_first_observation_usage_witness :
    Freebsd.lookupTable [] sampleKinfo.ki_pid = none
    ∧ ((Linux.compute_cpu_usage
          (Linux.set_time (Linux.Process.new 1 none 0) 50 60) 100 800).cpu_usage = 0
      ∧ Option.map Freebsd.Process.cpu_usage
          (Freebsd.get_process_data sampleKinfo [] 4 2048).2
        = (if sampleKinfo.ki_pid ≠ 1 ∧ sampleKinfo.ki_system then none
           else some (100 * (sampleKinfo.ki_pctcpu : ℚ) / 2048))) :=
  ⟨by decide,
    c2_first_observation_usage 1 none 0 50 60 100 800 sampleKinfo [] 4 2048 (by decide)⟩

/-- C3 counterexample: the claim says the per-refresh CPU usage never
exceeds `number_of_cores * 100`.  On the FreeBSD backend the per-process
usage `100 * ki_pctcpu / fscale` is not capped: with `fscale = 2048` and
`ki_pctcpu = 6144` the created entity reports 300%, above the 100% bound of
a one-core system. -/
theorem c3_freebsd_usage_uncapped_cex :
    Option.map Freebsd.Process.cpu_usage
        (Freebsd.get_process_data
          { ki_pid := 3, ki_ppid := 1, ki_system := false, ki_stat := 2, ki_size := 4000,
            ki_rssize := 3, ki_runtime := 20000, ki_pctcpu := 6144, ki_ruid := 0,
            ki_rgid := 0, ki_start_sec := 100, ru_inblock := 0, ru_oublock := 0 }
          [] 4 2048).2
      = some 300
    ∧ ¬ ((300 : ℚ) ≤ 1 * 100) := by
  refine ⟨?_, by norm_num⟩
  simp [Freebsd.get_process_data, Freebsd.lookupTable]
  norm_num

/-- C3 (amended): on the Linux backend, whenever `compute_cpu_usage`
computes a new usage (a previous CPU-time sample exists), the result is
capped by `.min(max_value)` and so never exceeds `cores * 100` when called
with that cap; the FreeBSD backend applies no cap to its per-process usage
`100 * ki_pctcpu / fscale`. -/
theorem c3_compute_cpu_usage_capped (p : Linux.Process) (total_time : ℚ) (cores : ℚ)
    (h : ¬(p.old_utime = 0 ∧ p.old_stime = 0)) :
    (Linux.compute_cpu_usage p total_time (cores * 100)).cpu_usage ≤ cores * 100 := by
  unfold Linux.compute_cpu_usage
  rw [if_neg h]
  exact min_le_right _ _

/-- Witness for C3's amended theorem: a twice-observed Linux entity on a
two-core cap. -/
theorem c3_compute_cpu_usage_capped_witness :
    ¬(({ Linux.Process.new 1 none 0 with
          old_utime := 1, old_stime := 2, utime := 30, stime := 4 } : Linux.Process).old_utime = 0
      ∧ ({ Linux.Process.new 1 none 0 with
          old_utime := 1, old_stime := 2, utime := 30, stime := 4 } : Linux.Process).old_stime = 0)
    ∧ (Linux.compute_cpu_usage
        { Linux.Process.new 1 none 0 with
          old_utime := 1, old_stime := 2, utime := 30, stime := 4 }
        10 ((2 : ℚ) * 100)).cpu_usage ≤ (2 : ℚ) * 100 :=
  ⟨by decide, c3_compute_cpu_usage_capped _ 10 2 (by decide)⟩

/-- Auxiliary: splitting at the explicitly placed first occurrence of a
separator. -/
theorem splitFirst_append (c : Char) (pre post : List Char) (h : c ∉ pre) :
    Linux.splitFirst c (pre ++ c :: post) = some (pre, post) := by
  induction pre with
  | nil => simp [Linux.splitFirst]
  | cons x xs ih =>
    have hx : x ≠ c := by
      intro e
      exact h (by simp [e])
    have hxs : c ∉ xs := fun m => h (List.mem_cons_of_mem _ m)
    simp [Linux.splitFirst, hx, ih hxs]

/-- Auxiliary: splitting at the explicitly placed last occurrence of a
separator. -/
theorem splitLast_append (c : Char) (pre post : List Char) (h : c ∉ post) :
    Linux.splitLast c (pre ++ c :: post) = some (pre, post) := by
  unfold Linux.splitLast
  have hrev : (pre ++ c :: post).reverse = post.reverse ++ c :: pre.reverse := by
    simp [List.reverse_append]
  rw [hrev, splitFirst_append c post.reverse pre.reverse (by simpa using h)]
  simp

/-- C6: for a stat record whose free-text name field contains the field
delimiter or the grouping punctuation (any `name`, e.g. `"a)b(c"`),
`parse_stat_file` bounds the name by the last closing parenthesis of the
remainder after the first whitespace-delimited field, so the name is
recovered exactly and all subsequent whitespace-delimited fields are
recovered unshifted. -/
theorem c6_parse_stat_file_name_bounded (field0 name rest : List Char)
    (h0 : ' ' ∉ field0) (h1 : ')' ∉ rest) :
    Linux.parse_stat_file (field0 ++ ' ' :: (('(' :: name) ++ ')' :: rest))
      = some (field0 :: name :: Linux.splitWhitespace rest) := by
  simp only [Linux.parse_stat_file, splitFirst_append _ _ _ h0,
    splitLast_append _ _ _ h1]
  rfl

/-- Witness for C6 at the spec's example name `"a)b(c"` followed by the
fields `R 7 8`. -/
theorem c6_parse_stat_file_name_bounded_witness :
    (' ' ∉ "42".toList ∧ ')' ∉ " R 7 8".toList)
    ∧ Linux.parse_stat_file
        ("42".toList ++ ' ' :: (('(' :: "a)b(c".toList) ++ ')' :: " R 7 8".toList))
      = some ("42".toList :: "a)b(c".toList :: Linux.splitWhitespace (" R 7 8".toList)) :=
  ⟨⟨by decide, by decide⟩,
    c6_parse_stat_file_name_bounded ("42".toList) ("a)b(c".toList) (" R 7 8".toList)
      (by decide) (by decide)⟩

/-- Auxiliary: a staged new process returned by `get_process_data` is marked
updated and carries the listed pid. -/
theorem get_process_data_new_fields (kproc : Freebsd.Kinfo) (table : Freebsd.PTable)
    (page_size : Nat) (fscale : ℚ) (p : Freebsd.Process)
    (h : (Freebsd.get_process_data kproc table page_size fscale).2 = some p) :
    p.updated = true ∧ p.pid = kproc.ki_pid := by
  unfold Freebsd.get_process_data at h
  by_cases hf : kproc.ki_pid ≠ 1 ∧ kproc.ki_system
  · simp [hf] at h
  · simp only [if_neg hf] at h
    cases hl : Freebsd.lookupTable table kproc.ki_pid with
    | some q => simp [hl] at h
    | none =>
      simp [hl] at h
      subst h
      exact ⟨rfl, rfl⟩

/-- Auxiliary: `updateTable` at a pid different from `pid` keeps every entry
at `pid` not-updated. -/
theorem updateTable_preserves_stale (table : Freebsd.PTable) (k : Int)
    (q : Freebsd.Process) (pid : Int) (hne : k ≠ pid)
    (hstale : ∀ pr ∈ table, pr.1 = pid → pr.2.updated = false) :
    ∀ pr ∈ Freebsd.updateTable table k q, pr.1 = pid → pr.2.updated = false := by
  intro pr hpr hpid
  unfold Freebsd.updateTable at hpr
  rw [List.mem_map] at hpr
  obtain ⟨a, ha, heq⟩ := hpr
  by_cases hb : a.1 == k
  · rw [if_pos hb] at heq
    subst heq
    have hak : a.1 = k := by simpa using hb
    exact absurd (hak.symm.trans hpid) hne
  · rw [if_neg hb] at heq
    subst heq
    exact hstale a ha hpid

/-- Auxiliary: `get_process_data` for a listed pid different from `pid`
keeps every table entry at `pid` not-updated. -/
theorem get_process_data_preserves_stale (kproc : Freebsd.Kinfo) (table : Freebsd.PTable)
    (page_size : Nat) (fscale : ℚ) (pid : Int) (hne : kproc.ki_pid ≠ pid)
    (hstale : ∀ pr ∈ table, pr.1 = pid → pr.2.updated = false) :
    ∀ pr ∈ (Freebsd.get_process_data kproc table page_size fscale).1,
      pr.1 = pid → pr.2.updated = false := by
  unfold Freebsd.get_process_data
  by_cases hf : kproc.ki_pid ≠ 1 ∧ kproc.ki_system
  · simpa [hf] using hstale
  · simp only [if_neg hf]
    cases hl : Freebsd.lookupTable table kproc.ki_pid with
    | none => simpa [hl] using hstale
    | some q =>
      simpa [hl] using updateTable_preserves_stale table kproc.ki_pid _ pid hne hstale

/-- Auxiliary: threading the table through the whole listing keeps every
entry at an unlisted pid not-updated. -/
theorem fetchAll_preserves_stale (procs : List Freebsd.Kinfo) (table : Freebsd.PTable)
    (page_size : Nat) (fscale : ℚ) (pid : Int)
    (hne : ∀ kproc ∈ procs, kproc.ki_pid ≠ pid)
    (hstale : ∀ pr ∈ table, pr.1 = pid → pr.2.updated = false) :
    ∀ pr ∈ (Freebsd.fetchAll procs table page_size fscale).1,
      pr.1 = pid → pr.2.updated = false := by
  induction procs generalizing table with
  | nil => simpa [Freebsd.fetchAll] using hstale
  | cons kproc rest ih =>
    have hstale1 := get_process_data_preserves_stale kproc table page_size fscale pid
      (hne kproc (List.mem_cons_self _ _)) hstale
    have hne1 : ∀ k ∈ rest, k.ki_pid ≠ pid := fun k hk => hne k (List.mem_cons_of_mem _ hk)
    unfold Freebsd.fetchAll
    cases hg : Freebsd.get_process_data kproc table page_size fscale with
    | mk t op =>
      rw [hg] at hstale1
      cases op with
      | some p => simpa using ih t hne1 hstale1
      | none => simpa using ih t hne1 hstale1

/-- Auxiliary: `markNotUpdated` leaves every entry not-updated. -/
theorem markNotUpdated_stale (table : Freebsd.PTable) (pid : Int) :
    ∀ pr ∈ Freebsd.markNotUpdated table, pr.1 = pid → pr.2.updated = false := by
  intro pr hpr _
  unfold Freebsd.markNotUpdated at hpr
  rw [List.mem_map] at hpr
  obtain ⟨a, _, heq⟩ := hpr
  subst heq
  rfl

/-- Auxiliary: every process staged by `fetchAll` is marked updated and
bears the pid of some listed kernel record. -/
theorem fetchAll_new_procs (procs : List Freebsd.Kinfo) (table : Freebsd.PTable)
    (page_size : Nat) (fscale : ℚ) :
    ∀ p ∈ (Freebsd.fetchAll procs table page_size fscale).2,
      p.updated = true ∧ ∃ kproc ∈ procs, p.pid = kproc.ki_pid := by
  induction procs generalizing table with
  | nil => simp [Freebsd.fetchAll]
  | cons kproc rest ih =>
    intro p hp
    unfold Freebsd.fetchAll at hp
    cases hg : Freebsd.get_process_data kproc table page_size fscale with
    | mk t op =>
      rw [hg] at hp
      cases op with
      | some q =>
        simp at hp
        cases hp with
        | inl he =>
          subst he
          have hq := get_process_data_new_fields kproc table page_size fscale p
            (by rw [hg])
          exact ⟨hq.1, kproc, List.mem_cons_self _ _, hq.2⟩
        | inr hm =>
          obtain ⟨hu, k, hk, hpid⟩ := ih t p hm
          exact ⟨hu, k, List.mem_cons_of_mem _ hk, hpid⟩
      | none =>
        simp at hp
        obtain ⟨hu, k, hk, hpid⟩ := ih t p hp
        exact ⟨hu, k, List.mem_cons_of_mem _ hk, hpid⟩

/-- Auxiliary: the eviction step keeps only updated entries, and none of
them can sit at an unlisted (hence stale) pid. -/
theorem filter_updated_inv (table : Freebsd.PTable) (pid : Int)
    (hstale : ∀ pr ∈ table, pr.1 = pid → pr.2.updated = false) :
    ∀ pr ∈ table.filter (fun pr => pr.2.updated),
      pr.2.updated = true ∧ pr.1 ≠ pid := by
  intro pr hpr
  simp only [List.mem_filter] at hpr
  refine ⟨hpr.2, ?_⟩
  intro he
  have h1 := hstale pr hpr.1 he
  have h2 := hpr.2
  rw [h1] at h2
  exact Bool.noConfusion h2

/-- Auxiliary: inserting an updated process at a non-`pid` key preserves the
post-pass invariant. -/
theorem insertTable_preserves_inv (table : Freebsd.PTable) (k : Int)
    (q : Freebsd.Process) (pid : Int) (hq : q.updated = true) (hk : k ≠ pid)
    (hinv : ∀ pr ∈ table, pr.2.updated = true ∧ pr.1 ≠ pid) :
    ∀ pr ∈ Freebsd.insertTable table k q, pr.2.updated = true ∧ pr.1 ≠ pid := by
  intro pr hpr
  unfold Freebsd.insertTable at hpr
  by_cases hc : Freebsd.containsTable table k
  · rw [if_pos hc] at hpr
    unfold Freebsd.updateTable at hpr
    rw [List.mem_map] at hpr
    obtain ⟨a, ha, heq⟩ := hpr
    by_cases hb : a.1 == k
    · rw [if_pos hb] at heq
      subst heq
      exact ⟨hq, (hinv a ha).2⟩
    · rw [if_neg hb] at heq
      subst heq
      exact hinv a ha
  · rw [if_neg hc] at hpr
    rw [List.mem_append] at hpr
    cases hpr with
    | inl h => exact hinv pr h
    | inr h =>
      simp at h
      subst h
      exact ⟨hq, hk⟩

/-- Auxiliary: the final insertion fold preserves the post-pass invariant
when every staged process is updated and off the unlisted pid. -/
theorem foldl_insert_preserves_inv (newps : List Freebsd.Process)
    (table : Freebsd.PTable) (pid : Int)
    (hnew : ∀ p ∈ newps, p.updated = true ∧ p.pid ≠ pid)
    (hinv : ∀ pr ∈ table, pr.2.updated = true ∧ pr.1 ≠ pid) :
    ∀ pr ∈ newps.foldl (fun t p => Freebsd.insertTable t p.pid p) table,
      pr.2.updated = true ∧ pr.1 ≠ pid := by
  induction newps generalizing table with
  | nil => simpa using hinv
  | cons p rest ih =>
    rw [List.foldl_cons]
    exact ih (Freebsd.insertTable table p.pid p)
      (fun q hq => hnew q (List.mem_cons_of_mem _ hq))
      (insertTable_preserves_inv table p.pid p pid
        (hnew p (List.mem_cons_self _ _)).1
        (hnew p (List.mem_cons_self _ _)).2 hinv)

/-- Auxiliary: membership form of the post-pass invariant of the FreeBSD
full-table refresh. -/
theorem refresh_procs_mem_inv (table : Freebsd.PTable) (procs : List Freebsd.Kinfo)
    (page_size : Nat) (fscale : ℚ) (pid : Int)
    (hne : procs ≠ []) (habs : ∀ kproc ∈ procs, kproc.ki_pid ≠ pid) :
    ∀ pr ∈ Freebsd.refresh_procs table procs page_size fscale,
      pr.2.updated = true ∧ pr.1 ≠ pid := by
  have hempty : procs.isEmpty = false := by
    cases procs with
    | nil => exact absurd rfl hne
    | cons a l => rfl
  unfold Freebsd.refresh_procs
  rw [hempty]
  simp only [Bool.false_eq_true, if_false]
  have hstale := fetchAll_preserves_stale procs (Freebsd.markNotUpdated table)
    page_size fscale pid habs (markNotUpdated_stale table pid)
  have hretained := filter_updated_inv _ pid hstale
  have hnewps := fetchAll_new_procs procs (Freebsd.markNotUpdated table) page_size fscale
  have hnew1 : ∀ p ∈ (Freebsd.fetchAll procs (Freebsd.markNotUpdated table)
      page_size fscale).2, p.updated = true ∧ p.pid ≠ pid := by
    intro p hp
    obtain ⟨hu, kproc, hk, hpid⟩ := hnewps p hp
    refine ⟨hu, ?_⟩
    rw [hpid]
    exact habs kproc hk
  exact foldl_insert_preserves_inv _ _ pid hnew1 hretained

/-- C5: after the FreeBSD full-table refresh pass (`refresh_procs`)
completes on a non-empty kernel listing, every entity present in the table
is marked `updated = true`, and no entity remains at a pid absent from the
kernel's current listing (its `updated` stayed `false`, so the eviction
step removed it and no staged insertion re-created it). -/
theorem c5_refresh_procs_post_pass (table : Freebsd.PTable) (procs : List Freebsd.Kinfo)
    (page_size : Nat) (fscale : ℚ) (pid : Int)
    (hne : procs ≠ []) (habs : ∀ kproc ∈ procs, kproc.ki_pid ≠ pid) :
    (Freebsd.refresh_procs table procs page_size fscale).all
        (fun pr => pr.2.updated) = true
    ∧ (Freebsd.refresh_procs table procs page_size fscale).all
        (fun pr => pr.1 != pid) = true := by
  have hinv := refresh_procs_mem_inv table procs page_size fscale pid hne habs
  constructor
  · rw [List.all_eq_true]
    intro pr hpr
    exact (hinv pr hpr).1
  · rw [List.all_eq_true]
    intro pr hpr
    simpa [bne_iff_ne] using (hinv pr hpr).2

/-- Witness for C5: a table holding a stale pid 99 refreshed against a
one-entry kernel listing; afterwards every entry is updated and pid 99 is
gone. -/
theorem c5_refresh_procs_post_pass_witness :
    (Freebsd.refresh_procs [(99, Freebsd.Process.new 99 none 0)] [sampleK5] 4 2048).all
        (fun pr => pr.2.updated) = true
    ∧ (Freebsd.refresh_procs [(99, Freebsd.Process.new 99 none 0)] [sampleK5] 4 2048).all
        (fun pr => pr.1 != (99 : Int)) = true :=
  c5_refresh_procs_post_pass [(99, Freebsd.Process.new 99 none 0)] [sampleK5] 4 2048 99
    (by decide) (by decide)

/-- Witness for C10 at a concrete delivery oracle and the Term signal. -/
theorem c10_freebsd_kill_poll_power_witness :
    (Signal.Term ≠ Signal.Poll ∧ Signal.Term ≠ Signal.Power)
    ∧ Freebsd.Process.kill (fun _ => true) Signal.Poll = (false, none)
    ∧ ∃ c : Int, Freebsd.signal_to_c Signal.Term = some c
        ∧ Freebsd.Process.kill (fun _ => true) Signal.Term = ((fun _ : Int => true) c, some c) :=
  ⟨⟨by decide, by decide⟩,
    (c10_freebsd_kill_poll_power (fun _ => true)).1,
    (c10_freebsd_kill_poll_power (fun _ => true)).2.2 Signal.Term (by decide) (by decide)⟩

end Sysinfo
